import Mathlib

/-!
Shallow embedding of the cgap extraction job of the wrangler repository
(`src/wrangler/jobs/cgap_extraction.py`) and of the `/wrangle` HTTP route
(`src/wrangler/racks.py`), together with theorems settling the spec claims.

The warehouse is modelled as a list of rows; external collaborators
(entity-uuid resolver, SequenceScape registration endpoints) are an `Env`
of response functions.  Side effects are modelled as an explicit event
trace in Python execution order; in particular the laziness of the
`create_labwares` generator consumed through `itertools.groupby` in `run`
is modelled faithfully, so warehouse writes interleave with submissions
exactly as in the source.
-/

namespace Wrangler

/-- Status `HTTPStatus.CREATED` from the Python `http` module. -/
def HTTPStatus.CREATED : Nat := 201

/-- Status `HTTPStatus.OK`. -/
def HTTPStatus.OK : Nat := 200

/-- Status `HTTPStatus.NOT_FOUND`. -/
def HTTPStatus.NOT_FOUND : Nat := 404

/-- Status `HTTPStatus.INTERNAL_SERVER_ERROR`. -/
def HTTPStatus.INTERNAL_SERVER_ERROR : Nat := 500

/-- Modelled from the spec: `STUDY_ENTITY` lives in `wrangler/constants.py`,
absent from `src/`; only its distinctness from the purpose entity matters. -/
def STUDY_ENTITY : String := "study"

/-- Modelled from the spec: `PLATE_PURPOSE_ENTITY` from `wrangler/constants.py`,
absent from `src/`; both purpose lookups use this entity kind. -/
def PLATE_PURPOSE_ENTITY : String := "plate_purpose"

/-- Modelled from the spec: `LYSATE_PLATE_PURPOSE` from `wrangler/constants.py`. -/
def LYSATE_PLATE_PURPOSE : String := "lysate_plate_purpose"

/-- Modelled from the spec: `LYSATE_TR_PURPOSE` from `wrangler/constants.py`. -/
def LYSATE_TR_PURPOSE : String := "lysate_tube_rack_purpose"

/-- One warehouse (mlwh) row: the fields consumed by the job.  `wrangled` is
the marker column (`NULL` modelled as `none`); the optional well-coordinate
and tube-position fields drive labware classification. -/
structure DbRow where
  container_barcode : String
  study : String
  destination : String
  wrangled : Option Nat
  well_coordinate : Option String
  tube_position : Option String
  deriving DecidableEq, Repr

/-- Labware types distinguished by the classifier.  `UNKNOWN` stands for any
classification outcome the job cannot handle (the `else` branch of
`create_labwares`). -/
inductive LabwareType where
  | PLATE
  | TUBE_RACK
  | UNKNOWN
  deriving DecidableEq, Repr

/-- Printable name of a labware type, standing in for the Python enum repr
interpolated into the fatal error message. -/
def labwareTypeName : LabwareType → String
  | .PLATE => "LabwareType.PLATE"
  | .TUBE_RACK => "LabwareType.TUBE_RACK"
  | .UNKNOWN => "LabwareType.UNKNOWN"

/-- Modelled from the spec: `determine_labware_type` lives in
`wrangler/helpers/general_helpers.py`, absent from `src/`.  Per spec §4.2 and
§8: rows carrying well-coordinate fields classify as PLATE; rows carrying
tube-position fields (no well coordinates) classify as TUBE_RACK; neither
shape is the unrecognized case. -/
def determine_labware_type (_barcode : String) (rows : List DbRow) : LabwareType :=
  if rows.all (fun r => r.well_coordinate.isSome) then .PLATE
  else if rows.all (fun r => r.tube_position.isSome) then .TUBE_RACK
  else .UNKNOWN

/-- Modelled from the spec: the Request Builder contract
(`create_plate_body` / `create_tube_rack_body`, absent from `src/`) is a pure
transformation of its arguments; the payload is modelled as the tuple of
arguments it was built from. -/
structure LabwareBody where
  labware : LabwareType
  barcode : String
  rows : List DbRow
  study_uuid : Option String
  purpose_uuid : Option String
  deriving DecidableEq, Repr

/-- Modelled from the spec: `create_plate_body` (Request Builder, plate). -/
def create_plate_body (barcode : String) (rows : List DbRow)
    (study_uuid : Option String) (purpose_uuid : Option String) : LabwareBody :=
  ⟨.PLATE, barcode, rows, study_uuid, purpose_uuid⟩

/-- Modelled from the spec: `create_tube_rack_body` (Request Builder, rack). -/
def create_tube_rack_body (barcode : String) (rows : List DbRow)
    (study_uuid : Option String) (purpose_uuid : Option String) : LabwareBody :=
  ⟨.TUBE_RACK, barcode, rows, study_uuid, purpose_uuid⟩

/-- The namedtuple `SSResponse` with fields barcode, body, successful. -/
structure SSResponse where
  barcode : String
  body : String
  successful : Bool
  deriving DecidableEq, Repr

/-- One observable side effect of a run, in Python execution order. -/
inductive Event where
  | fetchQuery (table dest : String)
  | entityLookup (entity name : String)
  | submit (body : LabwareBody)
  | markWrangled (table : String) (barcodes : List String)
  | logSuccess (barcodes : List String)
  | logFailure (barcodes : List String)
  | logBody (body : String)
  deriving DecidableEq, Repr

/-- The external collaborators: the entity-uuid resolver backend, the two
SequenceScape registration endpoints (each returning a response body and an
HTTP status), and the warehouse clock (`NOW()`). -/
structure Env where
  entity_uuid : String → String → String
  create_plate : LabwareBody → String × Nat
  create_tube_rack : LabwareBody → String × Nat
  now : Nat

/-- Run-scoped configuration: `MLWH_DB_TABLE` and
`CGAP_EXTRACTION_DESTINATION`. -/
structure Config where
  table : String
  destination : String

/-- Strict lexicographic order on character lists (by code point), the
collation `ORDER BY` sorts with. -/
def strLtList : List Char → List Char → Bool
  | [], [] => false
  | [], _ :: _ => true
  | _ :: _, [] => false
  | a :: as, b :: bs =>
    if a.toNat < b.toNat then true
    else if b.toNat < a.toNat then false
    else strLtList as bs

/-- Lexicographic `≤` on strings. -/
def strLe (a b : String) : Bool := !(strLtList b.data a.data)

/-- Insert a row into a list sorted by `container_barcode`. -/
def insertSorted (r : DbRow) : List DbRow → List DbRow
  | [] => [r]
  | x :: xs =>
    if strLe r.container_barcode x.container_barcode then r :: x :: xs
    else x :: insertSorted r xs

/-- The `ORDER BY container_barcode` of the fetch query, as insertion sort. -/
def sortByBarcode : List DbRow → List DbRow
  | [] => []
  | x :: xs => insertSorted x (sortByBarcode xs)

/-- Function `get_unwrangled_labware`: `SELECT * FROM table WHERE destination = d AND
wrangled IS NULL ORDER BY container_barcode`. -/
def get_unwrangled_labware (_table : String) (dest : String) (db : List DbRow) :
    List DbRow :=
  sortByBarcode (db.filter fun r => r.destination == dest && r.wrangled == none)

/-- Function `get_entity_uuid` (external resolver call): the uuid for an entity kind
and name. -/
def get_entity_uuid (env : Env) (entity name : String) : String :=
  env.entity_uuid entity name

/-- Function `get_study_uuids`: a map of study names to their uuids, one resolver call
per element of the (distinct) study list. -/
def get_study_uuids (env : Env) (studies : List String) : List (String × String) :=
  studies.map fun s => (s, get_entity_uuid env STUDY_ENTITY s)

/-- Function `get_plate_purpose_uuid`. -/
def get_plate_purpose_uuid (env : Env) : String :=
  get_entity_uuid env PLATE_PURPOSE_ENTITY LYSATE_PLATE_PURPOSE

/-- Function `get_tube_rack_purpose_uuid`. -/
def get_tube_rack_purpose_uuid (env : Env) : String :=
  get_entity_uuid env PLATE_PURPOSE_ENTITY LYSATE_TR_PURPOSE

/-- Function `update_wrangled_labware`: `UPDATE table SET wrangled = NOW() WHERE
container_barcode IN (...)`, applied to the modelled table state. -/
def update_wrangled_labware (now : Nat) (barcodes : List String)
    (db : List DbRow) : List DbRow :=
  db.map fun r =>
    if barcodes.contains r.container_barcode then { r with wrangled := some now }
    else r

/-- Python `itertools.groupby`: contiguous grouping of a list by a key, groups in
input order, each paired with its key. -/
def groupByKey (key : DbRow → String) : List DbRow → List (String × List DbRow)
  | [] => []
  | x :: xs =>
    match groupByKey key xs with
    | [] => [(key x, [x])]
    | (k, g) :: rest =>
      if key x = k then (key x, x :: g) :: rest
      else (key x, [x]) :: (k, g) :: rest

/-- The body of `create_labwares` for one container group: classify, look up
the study uuid of the first row and the purpose uuid, build the type-specific
payload, submit it, and package the `SSResponse`; the unhandled labware type
raises.  Returns the submitted payload together with the response. -/
def submitContainer (env : Env) (su : List (String × String))
    (pp : LabwareType → Option String) (c : String × List DbRow) :
    Except String (LabwareBody × SSResponse) :=
  let barcode := c.1
  let container_rows := c.2
  let labware_type := determine_labware_type barcode container_rows
  match container_rows.head? with
  | none => .error "IndexError: list index out of range"
  | some row0 =>
    let study_uuid := su.lookup row0.study
    match labware_type with
    | .PLATE =>
      let body := create_plate_body barcode container_rows study_uuid (pp .PLATE)
      let res := env.create_plate body
      .ok (body, ⟨barcode, res.1, res.2 == HTTPStatus.CREATED⟩)
    | .TUBE_RACK =>
      let body := create_tube_rack_body barcode container_rows study_uuid
        (pp .TUBE_RACK)
      let res := env.create_tube_rack body
      .ok (body, ⟨barcode, res.1, res.2 == HTTPStatus.CREATED⟩)
    | .UNKNOWN =>
      .error ("cgap extraction job can not handle labware type: "
        ++ labwareTypeName .UNKNOWN)

/-- The loop body of `run` for one completed outcome group: a success group
gets one `UPDATE` plus a success log line; a failure group gets a failure log
line plus one body log line per response.  No warehouse write for failures. -/
def flushGroup (table : String) (g : List SSResponse) : List Event :=
  match g with
  | [] => []
  | r0 :: _ =>
    let barcodes := g.map (fun x => x.barcode)
    if r0.successful then
      [Event.markWrangled table barcodes, Event.logSuccess barcodes]
    else
      Event.logFailure barcodes :: g.map fun x => Event.logBody x.body

/-- The fused lazy pipeline of the loop of `run` over
`groupby(create_labwares(...), lambda x: x.successful)`: `pending` are the
container groups not yet pulled from the generator, `cur` the buffered
responses of the currently open outcome group.  Pulling the next item
submits that container; a pull that raises aborts before the open group is
flushed, exactly as in Python. -/
def consumeResponses (env : Env) (su : List (String × String))
    (pp : LabwareType → Option String) (table : String) :
    List (String × List DbRow) → List SSResponse → List Event × Option String
  | [], cur => (flushGroup table cur, none)
  | c :: rest, cur =>
    match submitContainer env su pp c with
    | .error e => ([], some e)
    | .ok (body, r) =>
      match cur with
      | [] =>
        let t := consumeResponses env su pp table rest [r]
        (Event.submit body :: t.1, t.2)
      | r0 :: _ =>
        if r.successful == r0.successful then
          let t := consumeResponses env su pp table rest (cur ++ [r])
          (Event.submit body :: t.1, t.2)
        else
          let t := consumeResponses env su pp table rest [r]
          (Event.submit body :: (flushGroup table cur ++ t.1), t.2)

/-- Replay the committed warehouse writes of a trace onto the table state. -/
def applyTrace (now : Nat) (db : List DbRow) : List Event → List DbRow
  | [] => db
  | Event.markWrangled _ bcs :: rest =>
    applyTrace now (update_wrangled_labware now bcs db) rest
  | _ :: rest => applyTrace now db rest

/-- The rows fetched at the start of a run. -/
def runRows (cfg : Config) (db : List DbRow) : List DbRow :=
  get_unwrangled_labware cfg.table cfg.destination db

/-- The distinct study names of the fetched rows (the Python set
`{row["study"] for row in mlwh_rows}`). -/
def runStudies (cfg : Config) (db : List DbRow) : List String :=
  ((runRows cfg db).map fun r => r.study).dedup

/-- The study-uuid map built for this run. -/
def runStudyUuids (env : Env) (cfg : Config) (db : List DbRow) :
    List (String × String) :=
  get_study_uuids env (runStudies cfg db)

/-- The `plate_purpose_uuids` dict `{PLATE: ..., TUBE_RACK: ...}` passed to
`create_labwares`, as the `.get` lookup function. -/
def runPurposes (env : Env) : LabwareType → Option String := fun t =>
  match t with
  | .PLATE => some (get_plate_purpose_uuid env)
  | .TUBE_RACK => some (get_tube_rack_purpose_uuid env)
  | .UNKNOWN => none

/-- The container groups of the fetched rows. -/
def runContainers (cfg : Config) (db : List DbRow) : List (String × List DbRow) :=
  groupByKey (fun r => r.container_barcode) (runRows cfg db)

/-- Function `run(app)`: fetch, short-circuit on empty, batch-resolve uuids, then the
lazy create-and-partition loop.  Returns the event trace, the propagated
exception message if the run aborted, and the final table state. -/
def run (env : Env) (cfg : Config) (db : List DbRow) :
    List Event × Option String × List DbRow :=
  let mlwh_rows := runRows cfg db
  if mlwh_rows.length = 0 then
    ([Event.fetchQuery cfg.table cfg.destination], none, db)
  else
    let lookupEvents :=
      ((runStudies cfg db).map fun s => Event.entityLookup STUDY_ENTITY s)
      ++ [Event.entityLookup PLATE_PURPOSE_ENTITY LYSATE_PLATE_PURPOSE,
          Event.entityLookup PLATE_PURPOSE_ENTITY LYSATE_TR_PURPOSE]
    let t := consumeResponses env (runStudyUuids env cfg db) (runPurposes env)
      cfg.table (runContainers cfg db) []
    (Event.fetchQuery cfg.table cfg.destination :: lookupEvents ++ t.1, t.2,
      applyTrace env.now db t.1)

/-- The sequence of `SSResponse`s the generator would yield, or the raising
error: the specification-level view of the outcome sequence. -/
def outcomesOf (env : Env) (su : List (String × String))
    (pp : LabwareType → Option String) :
    List (String × List DbRow) → Except String (List SSResponse)
  | [] => .ok []
  | c :: rest =>
    match submitContainer env su pp c with
    | .error e => .error e
    | .ok x =>
      match outcomesOf env su pp rest with
      | .error e => .error e
      | .ok rs => .ok (x.2 :: rs)

/-- The barcode lists of the warehouse marker writes of a trace, in order. -/
def marksOf : List Event → List (List String)
  | [] => []
  | Event.markWrangled _ bcs :: rest => bcs :: marksOf rest
  | _ :: rest => marksOf rest

/-- All barcodes covered by marker writes of a trace, in order. -/
def markedBarcodes (tr : List Event) : List String :=
  (marksOf tr).flatten

/-- The barcodes submitted to SequenceScape, in trace order. -/
def submittedBarcodes (tr : List Event) : List String :=
  tr.filterMap fun e =>
    match e with
    | Event.submit body => some body.barcode
    | _ => none

/-- The barcodes reported in success/failure log lines, in trace order. -/
def reportedBarcodes (tr : List Event) : List String :=
  (tr.filterMap fun e =>
    match e with
    | Event.logSuccess bcs => some bcs
    | Event.logFailure bcs => some bcs
    | _ => none).flatten

/-- The names looked up against the study entity, in trace order. -/
def studyLookupNames (tr : List Event) : List String :=
  tr.filterMap fun e =>
    match e with
    | Event.entityLookup ent n => if ent = STUDY_ENTITY then some n else none
    | _ => none

/-- The names looked up against the purpose entity, in trace order. -/
def purposeLookupNames (tr : List Event) : List String :=
  tr.filterMap fun e =>
    match e with
    | Event.entityLookup ent n =>
      if ent = PLATE_PURPOSE_ENTITY then some n else none
    | _ => none

/-- Whether an event is a resolver lookup. -/
def isEntityLookup : Event → Bool
  | Event.entityLookup _ _ => true
  | _ => false

/-- Whether an event is a submission. -/
def isSubmitEvent : Event → Bool
  | Event.submit _ => true
  | _ => false

/-- No resolver lookup occurs at or after the first submission. -/
def noLookupAfterSubmit : List Event → Bool
  | [] => true
  | Event.submit _ :: rest => rest.all fun e => !(isEntityLookup e)
  | _ :: rest => noLookupAfterSubmit rest

/-- Whether some marker write strictly precedes some submission. -/
def markThenSubmit : List Event → Bool
  | [] => false
  | Event.markWrangled _ _ :: rest =>
    rest.any (fun e => isSubmitEvent e) || markThenSubmit rest
  | _ :: rest => markThenSubmit rest

/-- Every marker write of the trace covers only barcodes submitted earlier in
the trace (`sub` accumulates barcodes submitted so far). -/
def coveredMarks (sub : List String) : List Event → Bool
  | [] => true
  | Event.submit body :: rest => coveredMarks (body.barcode :: sub) rest
  | Event.markWrangled _ bcs :: rest =>
    bcs.all (fun b => sub.contains b) && coveredMarks sub rest
  | _ :: rest => coveredMarks sub rest

/-- A Python exception reaching the route handlers: either a `ValueError`
or any other `Exception`, each carrying its string form. -/
inductive PyExc where
  | valueError (s : String)
  | otherError (s : String)
  deriving DecidableEq, Repr

/-- Attribute access `e.message`: Python 3 exceptions have no `message`
attribute, so the access itself fails for every exception. -/
def PyExc.message : PyExc → Option String := fun _ => none

/-- What the `/wrangle` route handler produces: a returned response (body and
status), or an exception escaping the handler itself. -/
inductive WrangleResult where
  | response (body : String) (status : Nat)
  | raised (e : String)
  deriving DecidableEq, Repr

/-- Modelled from the spec: `wrangle_tubes` and `send_request_to_sequencescape`
live in `wrangler/helper.py`, absent from `src/`; their combined outcome is
abstracted to success or a raised exception, the route input here.  The
route body itself follows `racks.py` lines 42-53: success returns OK; a
`ValueError` handler logs then returns `str(e.message)` with NOT_FOUND — but
`e.message` does not exist, so the handler raises `AttributeError`; any other
exception returns the error body with NOT_FOUND. -/
def wrangle (outcome : Except PyExc Unit) : WrangleResult :=
  match outcome with
  | .ok _ =>
    .response "POST request successfully sent to Sequencescape" HTTPStatus.OK
  | .error e =>
    match e with
    | .valueError _ =>
      match e.message with
      | some msg => .response msg HTTPStatus.NOT_FOUND
      | none => .raised "AttributeError: ValueError object has no attribute message"
    | .otherError s =>
      .response ("Server error: " ++ s) HTTPStatus.NOT_FOUND

/-- The HTTP status a `WrangleResult` carries, when it returned at all. -/
def statusOf : WrangleResult → Option Nat
  | .response _ s => some s
  | .raised _ => none

end Wrangler

namespace Wrangler

/-! ### Basic lemmas about the list-level building blocks -/

theorem mem_insertSorted (a r : DbRow) (l : List DbRow) :
    a ∈ insertSorted r l ↔ a = r ∨ a ∈ l := by
  induction l with
  | nil => simp [insertSorted]
  | cons x xs ih =>
    simp only [insertSorted]
    split
    · simp
    · simp [ih]
      tauto

theorem mem_sortByBarcode (a : DbRow) (l : List DbRow) :
    a ∈ sortByBarcode l ↔ a ∈ l := by
  induction l with
  | nil => simp [sortByBarcode]
  | cons x xs ih => simp [sortByBarcode, mem_insertSorted, ih]

theorem groupByKey_nil (key : DbRow → String) : groupByKey key [] = [] := rfl

theorem groupByKey_flatten (key : DbRow → String) (l : List DbRow) :
    ((groupByKey key l).map fun p => p.2).flatten = l := by
  induction l with
  | nil => rfl
  | cons x xs ih =>
    simp only [groupByKey]
    cases h : groupByKey key xs with
    | nil =>
      rw [h] at ih
      simp at ih
      simp [ih]
    | cons p rest =>
      rw [h] at ih
      obtain ⟨k, g⟩ := p
      by_cases hk : key x = k
      · simp only [if_pos hk]
        simpa using ih
      · simp only [if_neg hk]
        simpa using ih

theorem groupByKey_key_eq (key : DbRow → String) (l : List DbRow) :
    ∀ p ∈ groupByKey key l, ∀ x ∈ p.2, key x = p.1 := by
  induction l with
  | nil => simp [groupByKey]
  | cons x xs ih =>
    simp only [groupByKey]
    cases h : groupByKey key xs with
    | nil =>
      intro p hp y hy
      simp at hp
      subst hp
      simp at hy
      simp [hy]
    | cons q rest =>
      obtain ⟨k, g⟩ := q
      rw [h] at ih
      by_cases hk : key x = k
      · simp only [if_pos hk]
        intro p hp y hy
        rcases List.mem_cons.mp hp with h1 | h2
        · subst h1
          simp only at hy
          rcases List.mem_cons.mp hy with h3 | h4
          · simp [h3]
          · have := ih (k, g) (List.mem_cons_self _ _) y h4
            simpa [hk] using this
        · exact ih p (List.mem_cons_of_mem _ h2) y hy
      · simp only [if_neg hk]
        intro p hp y hy
        rcases List.mem_cons.mp hp with h1 | h2
        · subst h1
          simp only at hy
          simp at hy
          simp [hy]
        · exact ih p h2 y hy

theorem groupByKey_groups_ne_nil (key : DbRow → String) (l : List DbRow) :
    ∀ p ∈ groupByKey key l, p.2 ≠ [] := by
  induction l with
  | nil => simp [groupByKey]
  | cons x xs ih =>
    simp only [groupByKey]
    cases h : groupByKey key xs with
    | nil =>
      intro p hp
      simp at hp
      subst hp
      simp
    | cons q rest =>
      obtain ⟨k, g⟩ := q
      rw [h] at ih
      by_cases hk : key x = k
      · simp only [if_pos hk]
        intro p hp
        rcases List.mem_cons.mp hp with h1 | h2
        · subst h1; simp
        · exact ih p (List.mem_cons_of_mem _ h2)
      · simp only [if_neg hk]
        intro p hp
        rcases List.mem_cons.mp hp with h1 | h2
        · subst h1; simp
        · exact ih p h2

theorem lookup_map_self (f : String → String) (names : List String) (s : String)
    (hs : s ∈ names) : (names.map fun n => (n, f n)).lookup s = some (f s) := by
  induction names with
  | nil => simp at hs
  | cons x xs ih =>
    rcases List.mem_cons.mp hs with h1 | h2
    · subst h1
      simp [List.lookup]
    · by_cases hx : s = x
      · subst hx
        simp [List.lookup]
      · simp only [List.map_cons, List.lookup]
        have : (s == x) = false := by simp [hx]
        rw [this]
        exact ih h2

end Wrangler

namespace Wrangler

/-! ### Equation lemmas for the pipeline -/

theorem flushGroup_nil (table : String) : flushGroup table [] = [] := rfl

theorem flushGroup_success (table : String) (r0 : SSResponse) (cs : List SSResponse)
    (h : r0.successful = true) :
    flushGroup table (r0 :: cs) =
      [Event.markWrangled table ((r0 :: cs).map fun x => x.barcode),
       Event.logSuccess ((r0 :: cs).map fun x => x.barcode)] := by
  simp [flushGroup, h]

theorem flushGroup_failure (table : String) (r0 : SSResponse) (cs : List SSResponse)
    (h : r0.successful = false) :
    flushGroup table (r0 :: cs) =
      Event.logFailure ((r0 :: cs).map fun x => x.barcode)
        :: (r0 :: cs).map fun x => Event.logBody x.body := by
  simp [flushGroup, h]

theorem consume_nil (env : Env) (su : List (String × String))
    (pp : LabwareType → Option String) (table : String) (cur : List SSResponse) :
    consumeResponses env su pp table [] cur = (flushGroup table cur, none) := rfl

theorem consume_cons_error (env : Env) (su : List (String × String))
    (pp : LabwareType → Option String) (table : String) (c : String × List DbRow)
    (rest : List (String × List DbRow)) (cur : List SSResponse) (e : String)
    (h : submitContainer env su pp c = .error e) :
    consumeResponses env su pp table (c :: rest) cur = ([], some e) := by
  simp [consumeResponses, h]

theorem consume_cons_ok_nil (env : Env) (su : List (String × String))
    (pp : LabwareType → Option String) (table : String) (c : String × List DbRow)
    (rest : List (String × List DbRow)) (body : LabwareBody) (r : SSResponse)
    (h : submitContainer env su pp c = .ok (body, r)) :
    consumeResponses env su pp table (c :: rest) [] =
      (Event.submit body :: (consumeResponses env su pp table rest [r]).1,
        (consumeResponses env su pp table rest [r]).2) := by
  simp [consumeResponses, h]

theorem consume_cons_ok_same (env : Env) (su : List (String × String))
    (pp : LabwareType → Option String) (table : String) (c : String × List DbRow)
    (rest : List (String × List DbRow)) (body : LabwareBody) (r r0 : SSResponse)
    (cs : List SSResponse)
    (h : submitContainer env su pp c = .ok (body, r))
    (hflag : r.successful = r0.successful) :
    consumeResponses env su pp table (c :: rest) (r0 :: cs) =
      (Event.submit body
          :: (consumeResponses env su pp table rest (r0 :: cs ++ [r])).1,
        (consumeResponses env su pp table rest (r0 :: cs ++ [r])).2) := by
  simp [consumeResponses, h, hflag]

theorem consume_cons_ok_diff (env : Env) (su : List (String × String))
    (pp : LabwareType → Option String) (table : String) (c : String × List DbRow)
    (rest : List (String × List DbRow)) (body : LabwareBody) (r r0 : SSResponse)
    (cs : List SSResponse)
    (h : submitContainer env su pp c = .ok (body, r))
    (hflag : r.successful ≠ r0.successful) :
    consumeResponses env su pp table (c :: rest) (r0 :: cs) =
      (Event.submit body
          :: (flushGroup table (r0 :: cs)
            ++ (consumeResponses env su pp table rest [r]).1),
        (consumeResponses env su pp table rest [r]).2) := by
  have hb : (r.successful == r0.successful) = false := by
    simp [hflag]
  simp [consumeResponses, h, hb]

theorem run_empty (env : Env) (cfg : Config) (db : List DbRow)
    (h : runRows cfg db = []) :
    run env cfg db = ([Event.fetchQuery cfg.table cfg.destination], none, db) := by
  simp [run, h]

theorem run_eq (env : Env) (cfg : Config) (db : List DbRow)
    (h : runRows cfg db ≠ []) :
    run env cfg db =
      (Event.fetchQuery cfg.table cfg.destination ::
        (((runStudies cfg db).map fun s => Event.entityLookup STUDY_ENTITY s)
          ++ (Event.entityLookup PLATE_PURPOSE_ENTITY LYSATE_PLATE_PURPOSE
            :: Event.entityLookup PLATE_PURPOSE_ENTITY LYSATE_TR_PURPOSE
            :: (consumeResponses env (runStudyUuids env cfg db) (runPurposes env)
                cfg.table (runContainers cfg db) []).1)),
       (consumeResponses env (runStudyUuids env cfg db) (runPurposes env)
          cfg.table (runContainers cfg db) []).2,
       applyTrace env.now db
         (consumeResponses env (runStudyUuids env cfg db) (runPurposes env)
            cfg.table (runContainers cfg db) []).1) := by
  have hlen : ¬((runRows cfg db).length = 0) := by
    simpa [List.length_eq_zero] using h
  simp [run, hlen]

end Wrangler

namespace Wrangler

/-! ### Structure of one container submission -/

theorem submitContainer_ok_shape (env : Env) (su : List (String × String))
    (pp : LabwareType → Option String) (c : String × List DbRow)
    (body : LabwareBody) (r : SSResponse)
    (h : submitContainer env su pp c = .ok (body, r)) :
    body.barcode = c.1 ∧ r.barcode = c.1 ∧
      ∃ row0, c.2.head? = some row0 ∧ body.study_uuid = su.lookup row0.study := by
  obtain ⟨bc, rows⟩ := c
  cases rows with
  | nil =>
    simp only [submitContainer, List.head?_nil] at h
    exact Except.noConfusion h
  | cons row0 rest =>
    cases hlt : determine_labware_type bc (row0 :: rest) with
    | PLATE =>
      simp only [submitContainer, List.head?_cons, hlt, create_plate_body] at h
      obtain ⟨hb, hr⟩ := Prod.mk.inj (Except.ok.inj h)
      subst hb
      subst hr
      exact ⟨rfl, rfl, row0, rfl, rfl⟩
    | TUBE_RACK =>
      simp only [submitContainer, List.head?_cons, hlt, create_tube_rack_body] at h
      obtain ⟨hb, hr⟩ := Prod.mk.inj (Except.ok.inj h)
      subst hb
      subst hr
      exact ⟨rfl, rfl, row0, rfl, rfl⟩
    | UNKNOWN =>
      simp only [submitContainer, List.head?_cons, hlt] at h
      exact Except.noConfusion h

theorem determine_nil_plate (bc : String) :
    determine_labware_type bc [] = .PLATE := by
  simp [determine_labware_type]

theorem submitContainer_unknown (env : Env) (su : List (String × String))
    (pp : LabwareType → Option String) (bc : String) (rows : List DbRow)
    (h : determine_labware_type bc rows = .UNKNOWN) :
    submitContainer env su pp (bc, rows) =
      .error ("cgap extraction job can not handle labware type: "
        ++ labwareTypeName .UNKNOWN) := by
  cases rows with
  | nil => rw [determine_nil_plate] at h; cases h
  | cons row0 rest =>
    simp only [submitContainer, List.head?_cons, h]

theorem submitContainer_known_ok (env : Env) (su : List (String × String))
    (pp : LabwareType → Option String) (bc : String) (rows : List DbRow)
    (hne : rows ≠ []) (hk : determine_labware_type bc rows ≠ .UNKNOWN) :
    ∃ body r, submitContainer env su pp (bc, rows) = .ok (body, r) := by
  cases rows with
  | nil => exact absurd rfl hne
  | cons row0 rest =>
    cases hsc : submitContainer env su pp (bc, row0 :: rest) with
    | ok x =>
      exact ⟨x.1, x.2, rfl⟩
    | error e =>
      cases hlt : determine_labware_type bc (row0 :: rest) with
      | PLATE => simp [submitContainer, hlt] at hsc
      | TUBE_RACK => simp [submitContainer, hlt] at hsc
      | UNKNOWN => exact absurd hlt hk

end Wrangler

namespace Wrangler

/-! ### Trace extractor lemmas -/

theorem marksOf_append (xs ys : List Event) :
    marksOf (xs ++ ys) = marksOf xs ++ marksOf ys := by
  induction xs with
  | nil => rfl
  | cons e rest ih => cases e <;> simp [marksOf, ih]

theorem markedBarcodes_append (xs ys : List Event) :
    markedBarcodes (xs ++ ys) = markedBarcodes xs ++ markedBarcodes ys := by
  simp [markedBarcodes, marksOf_append]

theorem marksOf_lookups (ent : String) (names : List String) :
    marksOf (names.map fun s => Event.entityLookup ent s) = [] := by
  induction names with
  | nil => rfl
  | cons n ns ih => simp [marksOf, ih]

theorem markedBarcodes_run (env : Env) (cfg : Config) (db : List DbRow)
    (h : runRows cfg db ≠ []) :
    markedBarcodes (run env cfg db).1 =
      markedBarcodes (consumeResponses env (runStudyUuids env cfg db)
        (runPurposes env) cfg.table (runContainers cfg db) []).1 := by
  rw [run_eq env cfg db h]
  simp [markedBarcodes, marksOf, marksOf_append, marksOf_lookups]

/-! ### Warehouse-state lemmas -/

theorem update_preserves_marked (now : Nat) (b : String) (bcs : List String)
    (db : List DbRow)
    (h : ∀ r ∈ db, r.container_barcode = b → r.wrangled = some now) :
    ∀ r ∈ update_wrangled_labware now bcs db,
      r.container_barcode = b → r.wrangled = some now := by
  intro r hr hbar
  simp only [update_wrangled_labware, List.mem_map] at hr
  obtain ⟨r0, hr0, hrr⟩ := hr
  subst hrr
  by_cases hc : bcs.contains r0.container_barcode = true
  · rw [if_pos hc]
  · rw [if_neg hc] at hbar ⊢
    exact h r0 hr0 hbar

theorem applyTrace_preserves (now : Nat) (b : String) (tr : List Event)
    (db : List DbRow)
    (h : ∀ r ∈ db, r.container_barcode = b → r.wrangled = some now) :
    ∀ r ∈ applyTrace now db tr, r.container_barcode = b → r.wrangled = some now := by
  induction tr generalizing db with
  | nil => exact h
  | cons e rest ih =>
    cases e
    case markWrangled t bcs =>
      exact ih _ (update_preserves_marked now b bcs db h)
    all_goals exact ih db h

theorem update_marks_all (now : Nat) (b : String) (bcs : List String)
    (db : List DbRow) (hb : b ∈ bcs) :
    ∀ r ∈ update_wrangled_labware now bcs db,
      r.container_barcode = b → r.wrangled = some now := by
  intro r hr hbar
  simp only [update_wrangled_labware, List.mem_map] at hr
  obtain ⟨r0, hr0, hrr⟩ := hr
  subst hrr
  by_cases hc : bcs.contains r0.container_barcode = true
  · rw [if_pos hc]
  · exfalso
    rw [if_neg hc] at hbar
    exact hc (List.elem_iff.mpr (hbar ▸ hb))

theorem applyTrace_marked (now : Nat) (b : String) (tr : List Event)
    (db : List DbRow) (h : b ∈ markedBarcodes tr) :
    ∀ r ∈ applyTrace now db tr, r.container_barcode = b → r.wrangled = some now := by
  induction tr generalizing db with
  | nil => simp [markedBarcodes, marksOf] at h
  | cons e rest ih =>
    cases e
    case markWrangled t bcs =>
      by_cases hb : b ∈ bcs
      · exact applyTrace_preserves now b rest _ (update_marks_all now b bcs db hb)
      · have h2 : b ∈ markedBarcodes rest := by
          simp only [markedBarcodes, marksOf, List.flatten_cons, List.mem_append] at h
          rcases h with h3 | h3
          · exact absurd h3 hb
          · exact h3
        exact ih _ h2
    all_goals {
      have h2 : b ∈ markedBarcodes rest := by
        simpa [markedBarcodes, marksOf] using h
      exact ih db h2
    }

end Wrangler

namespace Wrangler

/-! ### Marker writes cover only already-submitted barcodes -/

theorem coveredMarks_logBodies (sub : List String) (xs : List SSResponse)
    (tr : List Event) :
    coveredMarks sub ((xs.map fun x => Event.logBody x.body) ++ tr)
      = coveredMarks sub tr := by
  induction xs with
  | nil => rfl
  | cons x rest ih => simp [coveredMarks, ih]

theorem coveredMarks_flush_append (table : String) (g : List SSResponse)
    (sub : List String) (tr : List Event)
    (hg : ∀ r ∈ g, sub.contains r.barcode = true)
    (h : coveredMarks sub tr = true) :
    coveredMarks sub (flushGroup table g ++ tr) = true := by
  cases g with
  | nil => simpa [flushGroup] using h
  | cons r0 cs =>
    by_cases hs : r0.successful = true
    · rw [flushGroup_success table r0 cs hs]
      simp only [List.cons_append, coveredMarks, Bool.and_eq_true]
      refine ⟨?_, h⟩
      rw [List.all_eq_true]
      intro x hx
      obtain ⟨y, hy, hyx⟩ := List.mem_map.mp hx
      rw [← hyx]
      exact hg y hy
    · rw [flushGroup_failure table r0 cs (Bool.eq_false_iff.mpr hs)]
      simp only [List.cons_append, coveredMarks, List.map_cons]
      exact (coveredMarks_logBodies sub cs tr).trans h

theorem consume_covered (env : Env) (su : List (String × String))
    (pp : LabwareType → Option String) (table : String) :
    ∀ (pending : List (String × List DbRow)) (cur : List SSResponse)
      (sub : List String),
      (∀ r ∈ cur, sub.contains r.barcode = true) →
      coveredMarks sub (consumeResponses env su pp table pending cur).1 = true := by
  intro pending
  induction pending with
  | nil =>
    intro cur sub hcur
    rw [consume_nil]
    have h2 := coveredMarks_flush_append table cur sub [] hcur rfl
    simpa using h2
  | cons c rest ih =>
    intro cur sub hcur
    cases hs : submitContainer env su pp c with
    | error e =>
      rw [consume_cons_error env su pp table c rest cur e hs]
      rfl
    | ok x =>
      obtain ⟨body, r⟩ := x
      obtain ⟨hbb, hrb, -⟩ := submitContainer_ok_shape env su pp c body r hs
      have hrsub : (body.barcode :: sub).contains r.barcode = true := by
        rw [List.contains_cons, Bool.or_eq_true]
        exact Or.inl (by simp [hrb, hbb])
      have hmono : ∀ y ∈ cur, (body.barcode :: sub).contains y.barcode = true := by
        intro y hy
        rw [List.contains_cons, Bool.or_eq_true]
        exact Or.inr (hcur y hy)
      cases cur with
      | nil =>
        rw [consume_cons_ok_nil env su pp table c rest body r hs]
        simp only [coveredMarks]
        apply ih [r] (body.barcode :: sub)
        intro y hy
        rw [List.mem_singleton.mp hy]
        exact hrsub
      | cons r0 cs =>
        by_cases hflag : r.successful = r0.successful
        · rw [consume_cons_ok_same env su pp table c rest body r r0 cs hs hflag]
          simp only [coveredMarks]
          apply ih (r0 :: cs ++ [r]) (body.barcode :: sub)
          intro y hy
          rcases List.mem_cons.mp hy with h1 | h1
          · exact hmono y (h1 ▸ List.mem_cons_self r0 cs)
          · rcases List.mem_append.mp h1 with h2 | h2
            · exact hmono y (List.mem_cons_of_mem r0 h2)
            · rw [List.mem_singleton.mp h2]
              exact hrsub
        · rw [consume_cons_ok_diff env su pp table c rest body r r0 cs hs hflag]
          simp only [coveredMarks]
          apply coveredMarks_flush_append table (r0 :: cs) (body.barcode :: sub)
          · exact hmono
          · apply ih [r] (body.barcode :: sub)
            intro y hy
            rw [List.mem_singleton.mp hy]
            exact hrsub

end Wrangler

namespace Wrangler

/-! ### Which barcodes get marked: one write per contiguous success cohort -/

theorem marksOf_logBodies (xs : List SSResponse) :
    marksOf (xs.map fun x => Event.logBody x.body) = [] := by
  induction xs with
  | nil => rfl
  | cons x rest ih => simp [marksOf, ih]

theorem markedBarcodes_flush (table : String) (g : List SSResponse)
    (hom : ∀ x ∈ g, ∀ y ∈ g, x.successful = y.successful) :
    markedBarcodes (flushGroup table g)
      = ((g.filter fun x => x.successful).map fun x => x.barcode) := by
  cases g with
  | nil => rfl
  | cons r0 cs =>
    by_cases hs : r0.successful = true
    · rw [flushGroup_success table r0 cs hs]
      have hf : (r0 :: cs).filter (fun x => x.successful) = r0 :: cs :=
        List.filter_eq_self.mpr fun x hx => by
          rw [hom x hx r0 (List.mem_cons_self r0 cs), hs]
      rw [hf]
      simp [markedBarcodes, marksOf]
    · rw [flushGroup_failure table r0 cs (Bool.eq_false_iff.mpr hs)]
      have hf : (r0 :: cs).filter (fun x => x.successful) = [] :=
        List.filter_eq_nil_iff.mpr fun x hx hpx => by
          rw [hom x hx r0 (List.mem_cons_self r0 cs)] at hpx
          exact hs hpx
      rw [hf]
      simp [markedBarcodes, marksOf, marksOf_logBodies]

theorem consume_marks (env : Env) (su : List (String × String))
    (pp : LabwareType → Option String) (table : String) :
    ∀ (pending : List (String × List DbRow)) (cur rs : List SSResponse),
      (∀ x ∈ cur, ∀ y ∈ cur, x.successful = y.successful) →
      outcomesOf env su pp pending = .ok rs →
      markedBarcodes (consumeResponses env su pp table pending cur).1
        = (((cur ++ rs).filter fun x => x.successful).map fun x => x.barcode) := by
  intro pending
  induction pending with
  | nil =>
    intro cur rs hom hout
    have hrs : rs = [] := by
      simpa [outcomesOf] using hout.symm
    subst hrs
    rw [consume_nil, List.append_nil]
    exact markedBarcodes_flush table cur hom
  | cons c rest ih =>
    intro cur rs hom hout
    cases hs : submitContainer env su pp c with
    | error e =>
      rw [outcomesOf, hs] at hout
      exact Except.noConfusion hout
    | ok x =>
      obtain ⟨body, r⟩ := x
      rw [outcomesOf, hs] at hout
      cases hrest : outcomesOf env su pp rest with
      | error e =>
        rw [hrest] at hout
        exact Except.noConfusion hout
      | ok rs2 =>
        rw [hrest] at hout
        have hrs : rs = r :: rs2 := (Except.ok.inj hout).symm
        subst hrs
        cases cur with
        | nil =>
          rw [consume_cons_ok_nil env su pp table c rest body r hs]
          have hm := ih [r] rs2 (by intro x hx y hy; simp at hx hy; rw [hx, hy]) hrest
          simpa [markedBarcodes, marksOf] using hm
        | cons r0 cs =>
          by_cases hflag : r.successful = r0.successful
          · rw [consume_cons_ok_same env su pp table c rest body r r0 cs hs hflag]
            have hom2 : ∀ x ∈ r0 :: cs ++ [r], ∀ y ∈ r0 :: cs ++ [r],
                x.successful = y.successful := by
              intro x hx y hy
              have hmem : ∀ z, z ∈ r0 :: cs ++ [r] →
                  z.successful = r0.successful := by
                intro z hz
                rcases List.mem_cons.mp hz with h1 | h1
                · rw [h1]
                · rcases List.mem_append.mp h1 with h2 | h2
                  · exact hom z (List.mem_cons_of_mem r0 h2) r0
                      (List.mem_cons_self r0 cs)
                  · rw [List.mem_singleton.mp h2]
                    exact hflag
              rw [hmem x hx, hmem y hy]
            have hm := ih (r0 :: cs ++ [r]) rs2 hom2 hrest
            have heq : (r0 :: cs ++ [r]) ++ rs2 = (r0 :: cs) ++ (r :: rs2) := by
              simp
            rw [heq] at hm
            simpa [markedBarcodes, marksOf] using hm
          · rw [consume_cons_ok_diff env su pp table c rest body r r0 cs hs hflag]
            have hm := ih [r] rs2 (by intro x hx y hy; simp at hx hy; rw [hx, hy])
              hrest
            have hflush := markedBarcodes_flush table (r0 :: cs) hom
            have : markedBarcodes (Event.submit body
                :: (flushGroup table (r0 :: cs)
                  ++ (consumeResponses env su pp table rest [r]).1))
                = markedBarcodes (flushGroup table (r0 :: cs))
                  ++ markedBarcodes (consumeResponses env su pp table rest [r]).1 := by
              simp [markedBarcodes, marksOf, marksOf_append]
            rw [this, hflush]
            rw [List.filter_append, List.map_append, hm]
            rfl
end Wrangler

namespace Wrangler

/-! ### Submitted and reported barcodes of the pipeline -/

theorem submittedBarcodes_append (xs ys : List Event) :
    submittedBarcodes (xs ++ ys) = submittedBarcodes xs ++ submittedBarcodes ys := by
  simp [submittedBarcodes, List.filterMap_append]

theorem submittedBarcodes_cons_submit (body : LabwareBody) (tr : List Event) :
    submittedBarcodes (Event.submit body :: tr)
      = body.barcode :: submittedBarcodes tr := by
  simp [submittedBarcodes, List.filterMap_cons]

theorem submittedBarcodes_logBodies (xs : List SSResponse) :
    submittedBarcodes (xs.map fun x => Event.logBody x.body) = [] := by
  induction xs with
  | nil => rfl
  | cons x rest ih => simpa [submittedBarcodes, List.filterMap_cons] using ih

theorem submittedBarcodes_flush (table : String) (g : List SSResponse) :
    submittedBarcodes (flushGroup table g) = [] := by
  cases g with
  | nil => rfl
  | cons r0 cs =>
    by_cases hs : r0.successful = true
    · rw [flushGroup_success table r0 cs hs]
      rfl
    · rw [flushGroup_failure table r0 cs (Bool.eq_false_iff.mpr hs)]
      have h2 := submittedBarcodes_logBodies (r0 :: cs)
      simpa [submittedBarcodes, List.filterMap_cons] using h2

theorem reportedBarcodes_append (xs ys : List Event) :
    reportedBarcodes (xs ++ ys) = reportedBarcodes xs ++ reportedBarcodes ys := by
  simp [reportedBarcodes, List.filterMap_append]

theorem reportedBarcodes_cons_submit (body : LabwareBody) (tr : List Event) :
    reportedBarcodes (Event.submit body :: tr) = reportedBarcodes tr := by
  simp [reportedBarcodes, List.filterMap_cons]

theorem reportedBarcodes_logBodies (xs : List SSResponse) (tr : List Event) :
    reportedBarcodes ((xs.map fun x => Event.logBody x.body) ++ tr)
      = reportedBarcodes tr := by
  induction xs with
  | nil => rfl
  | cons x rest ih => simpa [reportedBarcodes, List.filterMap_cons] using ih

theorem reportedBarcodes_flush (table : String) (g : List SSResponse) :
    reportedBarcodes (flushGroup table g) = g.map fun x => x.barcode := by
  cases g with
  | nil => rfl
  | cons r0 cs =>
    by_cases hs : r0.successful = true
    · rw [flushGroup_success table r0 cs hs]
      simp [reportedBarcodes, List.filterMap_cons]
    · rw [flushGroup_failure table r0 cs (Bool.eq_false_iff.mpr hs)]
      have h2 := reportedBarcodes_logBodies (r0 :: cs) []
      simp only [List.append_nil] at h2
      simp [reportedBarcodes, List.filterMap_cons] at h2 ⊢

theorem consume_submits (env : Env) (su : List (String × String))
    (pp : LabwareType → Option String) (table : String) :
    ∀ (pending : List (String × List DbRow)) (cur rs : List SSResponse),
      outcomesOf env su pp pending = .ok rs →
      submittedBarcodes (consumeResponses env su pp table pending cur).1
        = pending.map fun c => c.1 := by
  intro pending
  induction pending with
  | nil =>
    intro cur rs hout
    rw [consume_nil]
    exact submittedBarcodes_flush table cur
  | cons c rest ih =>
    intro cur rs hout
    cases hs : submitContainer env su pp c with
    | error e =>
      rw [outcomesOf, hs] at hout
      exact Except.noConfusion hout
    | ok x =>
      obtain ⟨body, r⟩ := x
      rw [outcomesOf, hs] at hout
      cases hrest : outcomesOf env su pp rest with
      | error e =>
        rw [hrest] at hout
        exact Except.noConfusion hout
      | ok rs2 =>
        obtain ⟨hbb, -, -⟩ := submitContainer_ok_shape env su pp c body r hs
        cases cur with
        | nil =>
          rw [consume_cons_ok_nil env su pp table c rest body r hs,
            submittedBarcodes_cons_submit, ih [r] rs2 hrest, hbb, List.map_cons]
        | cons r0 cs =>
          by_cases hflag : r.successful = r0.successful
          · rw [consume_cons_ok_same env su pp table c rest body r r0 cs hs hflag,
              submittedBarcodes_cons_submit, ih (r0 :: cs ++ [r]) rs2 hrest, hbb,
              List.map_cons]
          · rw [consume_cons_ok_diff env su pp table c rest body r r0 cs hs hflag,
              submittedBarcodes_cons_submit, submittedBarcodes_append,
              submittedBarcodes_flush, ih [r] rs2 hrest, hbb, List.map_cons,
              List.nil_append]

theorem consume_reports (env : Env) (su : List (String × String))
    (pp : LabwareType → Option String) (table : String) :
    ∀ (pending : List (String × List DbRow)) (cur rs : List SSResponse),
      outcomesOf env su pp pending = .ok rs →
      reportedBarcodes (consumeResponses env su pp table pending cur).1
        = (cur.map fun x => x.barcode) ++ pending.map fun c => c.1 := by
  intro pending
  induction pending with
  | nil =>
    intro cur rs hout
    rw [consume_nil, reportedBarcodes_flush, List.map_nil, List.append_nil]
  | cons c rest ih =>
    intro cur rs hout
    cases hs : submitContainer env su pp c with
    | error e =>
      rw [outcomesOf, hs] at hout
      exact Except.noConfusion hout
    | ok x =>
      obtain ⟨body, r⟩ := x
      rw [outcomesOf, hs] at hout
      cases hrest : outcomesOf env su pp rest with
      | error e =>
        rw [hrest] at hout
        exact Except.noConfusion hout
      | ok rs2 =>
        obtain ⟨-, hrb, -⟩ := submitContainer_ok_shape env su pp c body r hs
        cases cur with
        | nil =>
          rw [consume_cons_ok_nil env su pp table c rest body r hs,
            reportedBarcodes_cons_submit, ih [r] rs2 hrest, List.map_cons,
            List.map_nil, List.nil_append, hrb, List.map_cons]
          rfl
        | cons r0 cs =>
          by_cases hflag : r.successful = r0.successful
          · rw [consume_cons_ok_same env su pp table c rest body r r0 cs hs hflag,
              reportedBarcodes_cons_submit, ih (r0 :: cs ++ [r]) rs2 hrest]
            simp [hrb]
          · rw [consume_cons_ok_diff env su pp table c rest body r r0 cs hs hflag,
              reportedBarcodes_cons_submit, reportedBarcodes_append,
              reportedBarcodes_flush, ih [r] rs2 hrest]
            simp [hrb]

end Wrangler

namespace Wrangler

/-! ### No resolver lookups after the batch resolution phase -/

theorem flush_no_lookup (table : String) (g : List SSResponse) :
    ∀ e ∈ flushGroup table g, isEntityLookup e = false := by
  cases g with
  | nil => simp [flushGroup]
  | cons r0 cs =>
    by_cases hs : r0.successful = true
    · rw [flushGroup_success table r0 cs hs]
      intro e he
      rcases List.mem_cons.mp he with h1 | h1
      · rw [h1]; rfl
      · rw [List.mem_singleton.mp h1]; rfl
    · rw [flushGroup_failure table r0 cs (Bool.eq_false_iff.mpr hs)]
      intro e he
      rcases List.mem_cons.mp he with h1 | h1
      · rw [h1]; rfl
      · obtain ⟨x, -, hx⟩ := List.mem_map.mp h1
        rw [← hx]; rfl

theorem consume_no_lookup (env : Env) (su : List (String × String))
    (pp : LabwareType → Option String) (table : String) :
    ∀ (pending : List (String × List DbRow)) (cur : List SSResponse),
      ∀ e ∈ (consumeResponses env su pp table pending cur).1,
        isEntityLookup e = false := by
  intro pending
  induction pending with
  | nil =>
    intro cur e he
    rw [consume_nil] at he
    exact flush_no_lookup table cur e he
  | cons c rest ih =>
    intro cur e he
    cases hs : submitContainer env su pp c with
    | error msg =>
      rw [consume_cons_error env su pp table c rest cur msg hs] at he
      simp at he
    | ok x =>
      obtain ⟨body, r⟩ := x
      cases cur with
      | nil =>
        rw [consume_cons_ok_nil env su pp table c rest body r hs] at he
        rcases List.mem_cons.mp he with h1 | h1
        · rw [h1]; rfl
        · exact ih [r] e h1
      | cons r0 cs =>
        by_cases hflag : r.successful = r0.successful
        · rw [consume_cons_ok_same env su pp table c rest body r r0 cs hs hflag] at he
          rcases List.mem_cons.mp he with h1 | h1
          · rw [h1]; rfl
          · exact ih (r0 :: cs ++ [r]) e h1
        · rw [consume_cons_ok_diff env su pp table c rest body r r0 cs hs hflag] at he
          rcases List.mem_cons.mp he with h1 | h1
          · rw [h1]; rfl
          · rcases List.mem_append.mp h1 with h2 | h2
            · exact flush_no_lookup table (r0 :: cs) e h2
            · exact ih [r] e h2

theorem studyLookupNames_eq_nil (tr : List Event)
    (h : ∀ e ∈ tr, isEntityLookup e = false) : studyLookupNames tr = [] := by
  induction tr with
  | nil => rfl
  | cons e rest ih =>
    cases e
    case entityLookup ent n =>
      have h2 := h _ (List.mem_cons_self _ _)
      simp [isEntityLookup] at h2
    all_goals {
      simp only [studyLookupNames, List.filterMap_cons]
      exact ih fun x hx => h x (List.mem_cons_of_mem _ hx)
    }

theorem purposeLookupNames_eq_nil (tr : List Event)
    (h : ∀ e ∈ tr, isEntityLookup e = false) : purposeLookupNames tr = [] := by
  induction tr with
  | nil => rfl
  | cons e rest ih =>
    cases e
    case entityLookup ent n =>
      have h2 := h _ (List.mem_cons_self _ _)
      simp [isEntityLookup] at h2
    all_goals {
      simp only [purposeLookupNames, List.filterMap_cons]
      exact ih fun x hx => h x (List.mem_cons_of_mem _ hx)
    }

end Wrangler

namespace Wrangler

/-! ### Origin of submit events and the abort behaviour -/

theorem flush_no_submit (table : String) (g : List SSResponse)
    (body : LabwareBody) : Event.submit body ∉ flushGroup table g := by
  intro hmem
  have h2 := submittedBarcodes_flush table g
  cases g with
  | nil => simp [flushGroup] at hmem
  | cons r0 cs =>
    by_cases hs : r0.successful = true
    · rw [flushGroup_success table r0 cs hs] at hmem
      rcases List.mem_cons.mp hmem with h1 | h1
      · exact Event.noConfusion h1
      · rw [List.mem_singleton] at h1
        exact Event.noConfusion h1
    · rw [flushGroup_failure table r0 cs (Bool.eq_false_iff.mpr hs)] at hmem
      rcases List.mem_cons.mp hmem with h1 | h1
      · exact Event.noConfusion h1
      · obtain ⟨x, -, hx⟩ := List.mem_map.mp h1
        exact Event.noConfusion hx

theorem consume_submit_origin (env : Env) (su : List (String × String))
    (pp : LabwareType → Option String) (table : String) :
    ∀ (pending : List (String × List DbRow)) (cur : List SSResponse)
      (body : LabwareBody),
      Event.submit body ∈ (consumeResponses env su pp table pending cur).1 →
      ∃ c r, c ∈ pending ∧ submitContainer env su pp c = .ok (body, r) := by
  intro pending
  induction pending with
  | nil =>
    intro cur body hmem
    rw [consume_nil] at hmem
    exact absurd hmem (flush_no_submit table cur body)
  | cons c rest ih =>
    intro cur body hmem
    cases hs : submitContainer env su pp c with
    | error msg =>
      rw [consume_cons_error env su pp table c rest cur msg hs] at hmem
      simp at hmem
    | ok x =>
      obtain ⟨body0, r⟩ := x
      have hstep : ∀ tail, Event.submit body ∈ (Event.submit body0 :: tail) →
          body = body0 ∨ Event.submit body ∈ tail := by
        intro tail hm
        rcases List.mem_cons.mp hm with h1 | h1
        · exact Or.inl (congrArg (fun e => match e with
            | Event.submit b => b
            | _ => body) h1)
        · exact Or.inr h1
      cases cur with
      | nil =>
        rw [consume_cons_ok_nil env su pp table c rest body0 r hs] at hmem
        rcases hstep _ hmem with h1 | h1
        · exact ⟨c, r, List.mem_cons_self c rest, h1 ▸ hs⟩
        · obtain ⟨c2, r2, hc2, hsc2⟩ := ih [r] body h1
          exact ⟨c2, r2, List.mem_cons_of_mem c hc2, hsc2⟩
      | cons r0 cs =>
        by_cases hflag : r.successful = r0.successful
        · rw [consume_cons_ok_same env su pp table c rest body0 r r0 cs hs hflag]
            at hmem
          rcases hstep _ hmem with h1 | h1
          · exact ⟨c, r, List.mem_cons_self c rest, h1 ▸ hs⟩
          · obtain ⟨c2, r2, hc2, hsc2⟩ := ih (r0 :: cs ++ [r]) body h1
            exact ⟨c2, r2, List.mem_cons_of_mem c hc2, hsc2⟩
        · rw [consume_cons_ok_diff env su pp table c rest body0 r r0 cs hs hflag]
            at hmem
          rcases hstep _ hmem with h1 | h1
          · exact ⟨c, r, List.mem_cons_self c rest, h1 ▸ hs⟩
          · rcases List.mem_append.mp h1 with h2 | h2
            · exact absurd h2 (flush_no_submit table (r0 :: cs) body)
            · obtain ⟨c2, r2, hc2, hsc2⟩ := ih [r] body h2
              exact ⟨c2, r2, List.mem_cons_of_mem c hc2, hsc2⟩

theorem marked_subset_submitted (tr : List Event) :
    ∀ (sub : List String), coveredMarks sub tr = true →
      ∀ b ∈ markedBarcodes tr, b ∈ sub ∨ b ∈ submittedBarcodes tr := by
  induction tr with
  | nil =>
    intro sub hcov b hb
    simp [markedBarcodes, marksOf] at hb
  | cons e rest ih =>
    intro sub hcov b hb
    cases e
    case submit body =>
      have hb2 : b ∈ markedBarcodes rest := by
        simpa [markedBarcodes, marksOf] using hb
      have hcov2 : coveredMarks (body.barcode :: sub) rest = true := hcov
      rcases ih (body.barcode :: sub) hcov2 b hb2 with h1 | h1
      · rcases List.mem_cons.mp h1 with h2 | h2
        · right
          rw [submittedBarcodes_cons_submit, h2]
          exact List.mem_cons_self _ _
        · exact Or.inl h2
      · right
        rw [submittedBarcodes_cons_submit]
        exact List.mem_cons_of_mem _ h1
    case markWrangled t bcs =>
      simp only [coveredMarks, Bool.and_eq_true, List.all_eq_true] at hcov
      obtain ⟨hall, hcov2⟩ := hcov
      have hsplit : b ∈ bcs ∨ b ∈ markedBarcodes rest := by
        simpa [markedBarcodes, marksOf] using hb
      have hsub : submittedBarcodes (Event.markWrangled t bcs :: rest)
          = submittedBarcodes rest := by
        simp [submittedBarcodes, List.filterMap_cons]
      rcases hsplit with h1 | h1
      · left
        have h2 := hall b h1
        exact List.elem_iff.mp h2
      · rcases ih sub hcov2 b h1 with h2 | h2
        · exact Or.inl h2
        · right
          rw [hsub]
          exact h2
    all_goals {
      have hb2 : b ∈ markedBarcodes rest := by
        simpa [markedBarcodes, marksOf] using hb
      rcases ih sub hcov b hb2 with h1 | h1
      · exact Or.inl h1
      · right
        simpa [submittedBarcodes, List.filterMap_cons] using h1
    }

end Wrangler

namespace Wrangler

/-- The message raised by `create_labwares` for an unhandled labware type. -/
def unknownLabwareMsg : String :=
  "cgap extraction job can not handle labware type: " ++ labwareTypeName .UNKNOWN

theorem consume_abort (env : Env) (su : List (String × String))
    (pp : LabwareType → Option String) (table : String) (bc : String)
    (rows : List DbRow) (post : List (String × List DbRow))
    (hunk : determine_labware_type bc rows = .UNKNOWN) :
    ∀ (pre : List (String × List DbRow)) (cur : List SSResponse),
      (∀ p ∈ pre, p.2 ≠ [] ∧ determine_labware_type p.1 p.2 ≠ .UNKNOWN) →
      (consumeResponses env su pp table (pre ++ (bc, rows) :: post) cur).2
          = some unknownLabwareMsg
        ∧ submittedBarcodes
            (consumeResponses env su pp table (pre ++ (bc, rows) :: post) cur).1
          = pre.map fun c => c.1 := by
  intro pre
  induction pre with
  | nil =>
    intro cur hpre
    have herr := submitContainer_unknown env su pp bc rows hunk
    rw [List.nil_append,
      consume_cons_error env su pp table (bc, rows) post cur _ herr]
    exact ⟨rfl, rfl⟩
  | cons p pre2 ih =>
    intro cur hpre
    obtain ⟨hne, hk⟩ := hpre p (List.mem_cons_self _ _)
    obtain ⟨body, r, hs⟩ := submitContainer_known_ok env su pp p.1 p.2 hne hk
    have hs2 : submitContainer env su pp p = .ok (body, r) := hs
    obtain ⟨hbb, -, -⟩ := submitContainer_ok_shape env su pp p body r hs2
    have hpre2 : ∀ q ∈ pre2, q.2 ≠ [] ∧ determine_labware_type q.1 q.2 ≠ .UNKNOWN :=
      fun q hq => hpre q (List.mem_cons_of_mem _ hq)
    rw [List.cons_append]
    cases cur with
    | nil =>
      rw [consume_cons_ok_nil env su pp table p _ body r hs2]
      obtain ⟨h1, h2⟩ := ih [r] hpre2
      refine ⟨h1, ?_⟩
      rw [submittedBarcodes_cons_submit, h2, hbb, List.map_cons]
    | cons r0 cs =>
      by_cases hflag : r.successful = r0.successful
      · rw [consume_cons_ok_same env su pp table p _ body r r0 cs hs2 hflag]
        obtain ⟨h1, h2⟩ := ih (r0 :: cs ++ [r]) hpre2
        refine ⟨h1, ?_⟩
        rw [submittedBarcodes_cons_submit, h2, hbb, List.map_cons]
      · rw [consume_cons_ok_diff env su pp table p _ body r r0 cs hs2 hflag]
        obtain ⟨h1, h2⟩ := ih [r] hpre2
        refine ⟨h1, ?_⟩
        rw [submittedBarcodes_cons_submit, submittedBarcodes_append,
          submittedBarcodes_flush, h2, hbb, List.map_cons, List.nil_append]

theorem groupByKey_mem_rows (key : DbRow → String) (l : List DbRow) :
    ∀ p ∈ groupByKey key l, ∀ x ∈ p.2, x ∈ l := by
  intro p hp x hx
  rw [← groupByKey_flatten key l]
  rw [List.mem_flatten]
  exact ⟨p.2, List.mem_map.mpr ⟨p, hp, rfl⟩, hx⟩

theorem runStudyUuids_lookup_isSome (env : Env) (cfg : Config) (db : List DbRow)
    (s : String) (hs : s ∈ runStudies cfg db) :
    ((runStudyUuids env cfg db).lookup s).isSome = true := by
  have h2 := lookup_map_self (fun n => get_entity_uuid env STUDY_ENTITY n)
    (runStudies cfg db) s hs
  have h3 : (runStudyUuids env cfg db).lookup s
      = some (get_entity_uuid env STUDY_ENTITY s) := h2
  rw [h3]
  rfl

end Wrangler

namespace Wrangler

/-! ### Fixtures for the witness theorems -/

/-- Witness configuration. -/
def wCfg : Config := ⟨"mlwh_table", "cgap"⟩

/-- A plate-shaped unwrangled row for the witness table. -/
def wRow (b s : String) : DbRow := ⟨b, s, "cgap", none, some "A1", none⟩

/-- Witness table: three containers A, B, C in barcode order. -/
def wDb : List DbRow := [wRow "A" "s1", wRow "B" "s1", wRow "C" "s2"]

/-- Witness collaborators: uuids derived from names; the plate registration
endpoint rejects barcode B and creates everything else. -/
def wEnv : Env :=
  ⟨fun _ n => n ++ "-uuid",
   fun body => if body.barcode = "B" then ("bad request", 422) else ("created", 201),
   fun _ => ("created", 201), 7⟩

/-- Witness table whose rows all target another destination. -/
def wDbOff : List DbRow := [⟨"A", "s1", "other", none, some "A1", none⟩]

/-- Witness table whose second container matches no labware shape. -/
def wDbBad : List DbRow := [wRow "A" "s1", ⟨"B", "s1", "cgap", none, none, none⟩]

/-! ### Claim C7 -/

/-- C7: Empty-batch short circuit: when the fetch of unwrangled rows returns
zero rows, `run` terminates immediately with no resolver lookups, no
submissions, and no warehouse write: its whole trace is the fetch query, no
error propagates, and the table is unchanged. -/
theorem C7_empty_batch_short_circuit (env : Env) (cfg : Config) (db : List DbRow)
    (h : get_unwrangled_labware cfg.table cfg.destination db = []) :
    run env cfg db = ([Event.fetchQuery cfg.table cfg.destination], none, db) :=
  run_empty env cfg db h

/-- Witness for C7 on a concrete table whose rows target another
destination. -/
theorem C7_empty_batch_short_circuit_witness :
    get_unwrangled_labware wCfg.table wCfg.destination wDbOff = []
    ∧ run wEnv wCfg wDbOff
        = ([Event.fetchQuery wCfg.table wCfg.destination], none, wDbOff) :=
  ⟨by decide, C7_empty_batch_short_circuit wEnv wCfg wDbOff (by decide)⟩

/-! ### Claim C10 -/

/-- C10: the `/wrangle` route handler itself never returns
INTERNAL_SERVER_ERROR: every returned status is OK or NOT_FOUND; a
non-ValueError exception is mapped to a NOT_FOUND error body; and for a
ValueError the handler reads the non-existent `e.message` attribute and
therefore raises instead of returning the documented NOT_FOUND body. -/
theorem C10_wrangle_route_error_mapping (m : String)
    (outcome : Except PyExc Unit) :
    (statusOf (wrangle outcome) = some HTTPStatus.OK
      ∨ statusOf (wrangle outcome) = some HTTPStatus.NOT_FOUND
      ∨ statusOf (wrangle outcome) = none)
    ∧ wrangle (.error (.otherError m))
        = .response ("Server error: " ++ m) HTTPStatus.NOT_FOUND
    ∧ wrangle (.error (.valueError m))
        = .raised "AttributeError: ValueError object has no attribute message" := by
  refine ⟨?_, rfl, rfl⟩
  cases outcome with
  | ok u => exact Or.inl rfl
  | error e =>
    cases e with
    | valueError s => exact Or.inr (Or.inr rfl)
    | otherError s => exact Or.inr (Or.inl rfl)

end Wrangler

namespace Wrangler

theorem update_update_eq (now : Nat) (a c : String) (db : List DbRow) :
    update_wrangled_labware now [c] (update_wrangled_labware now [a] db)
      = (db.map fun r =>
        if r.container_barcode = a ∨ r.container_barcode = c
        then { r with wrangled := some now } else r) := by
  simp only [update_wrangled_labware, List.map_map]
  apply List.map_congr_left
  intro r _
  by_cases h1 : r.container_barcode = a
  · by_cases h2 : r.container_barcode = c
    · rw [h1] at h2
      simp [Function.comp, List.contains_cons, h1, h2]
    · rw [h1] at h2
      simp [Function.comp, List.contains_cons, h1, h2]
  · by_cases h2 : r.container_barcode = c
    · rw [h2] at h1
      simp [Function.comp, List.contains_cons, h1, h2]
    · simp [Function.comp, List.contains_cons, h1, h2]

/-! ### Claim C1 -/

/-- C1: Partial-failure commit: for a run whose fetched rows form containers
A, B, C processed in that order, where the submissions for A and C return a
created status and the submission for B does not, the warehouse marker
updates cover exactly the barcodes A and C; rows of barcode B are untouched,
so the marker of B remains unset; the barcode of B and its response body go to
the failure log; and the failure of B does not abort the run. -/
theorem C1_mixed_outcome_commit (env : Env) (cfg : Config) (db : List DbRow)
    (A B C : String) (rowsA rowsB rowsC : List DbRow)
    (bodyA bodyB bodyC : LabwareBody) (respA respB respC : String)
    (hBA : B ≠ A) (hBC : B ≠ C)
    (hfetch : runContainers cfg db = [(A, rowsA), (B, rowsB), (C, rowsC)])
    (hA : submitContainer env (runStudyUuids env cfg db) (runPurposes env)
      (A, rowsA) = .ok (bodyA, ⟨A, respA, true⟩))
    (hB : submitContainer env (runStudyUuids env cfg db) (runPurposes env)
      (B, rowsB) = .ok (bodyB, ⟨B, respB, false⟩))
    (hC : submitContainer env (runStudyUuids env cfg db) (runPurposes env)
      (C, rowsC) = .ok (bodyC, ⟨C, respC, true⟩)) :
    markedBarcodes (run env cfg db).1 = [A, C]
    ∧ Event.logFailure [B] ∈ (run env cfg db).1
    ∧ Event.logBody respB ∈ (run env cfg db).1
    ∧ (run env cfg db).2.1 = none
    ∧ (run env cfg db).2.2 = (db.map fun r =>
        if r.container_barcode = A ∨ r.container_barcode = C
        then { r with wrangled := some env.now } else r)
    ∧ ∀ r ∈ db, r.container_barcode = B → r ∈ (run env cfg db).2.2 := by
  have hne : runRows cfg db ≠ [] := by
    intro h0
    rw [runContainers, h0] at hfetch
    exact List.noConfusion hfetch
  have hstep : consumeResponses env (runStudyUuids env cfg db) (runPurposes env)
      cfg.table (runContainers cfg db) [] =
      ([Event.submit bodyA, Event.submit bodyB,
        Event.markWrangled cfg.table [A], Event.logSuccess [A],
        Event.submit bodyC,
        Event.logFailure [B], Event.logBody respB,
        Event.markWrangled cfg.table [C], Event.logSuccess [C]], none) := by
    rw [hfetch]
    simp [consumeResponses, hA, hB, hC, flushGroup]
  have hrun : run env cfg db =
      (Event.fetchQuery cfg.table cfg.destination ::
        (((runStudies cfg db).map fun s => Event.entityLookup STUDY_ENTITY s)
          ++ (Event.entityLookup PLATE_PURPOSE_ENTITY LYSATE_PLATE_PURPOSE
            :: Event.entityLookup PLATE_PURPOSE_ENTITY LYSATE_TR_PURPOSE
            :: [Event.submit bodyA, Event.submit bodyB,
                Event.markWrangled cfg.table [A], Event.logSuccess [A],
                Event.submit bodyC,
                Event.logFailure [B], Event.logBody respB,
                Event.markWrangled cfg.table [C], Event.logSuccess [C]])),
       none,
       applyTrace env.now db
         [Event.submit bodyA, Event.submit bodyB,
          Event.markWrangled cfg.table [A], Event.logSuccess [A],
          Event.submit bodyC,
          Event.logFailure [B], Event.logBody respB,
          Event.markWrangled cfg.table [C], Event.logSuccess [C]]) := by
    rw [run_eq env cfg db hne, hstep]
  have hdb : applyTrace env.now db
      [Event.submit bodyA, Event.submit bodyB,
       Event.markWrangled cfg.table [A], Event.logSuccess [A],
       Event.submit bodyC,
       Event.logFailure [B], Event.logBody respB,
       Event.markWrangled cfg.table [C], Event.logSuccess [C]]
      = (db.map fun r =>
        if r.container_barcode = A ∨ r.container_barcode = C
        then { r with wrangled := some env.now } else r) := by
    simp only [applyTrace]
    exact update_update_eq env.now A C db
  refine ⟨?_, ?_, ?_, ?_, ?_, ?_⟩
  · rw [hrun]
    simp [markedBarcodes, marksOf, marksOf_append, marksOf_lookups]
  · rw [hrun]
    simp
  · rw [hrun]
    simp
  · rw [hrun]
  · rw [hrun]
    exact hdb
  · intro r hr hbar
    rw [hrun]
    simp only [hdb]
    refine List.mem_map.mpr ⟨r, hr, ?_⟩
    have hcond : ¬(r.container_barcode = A ∨ r.container_barcode = C) := by
      rw [hbar]
      intro hcon
      rcases hcon with h1 | h1
      · exact hBA h1
      · exact hBC h1
    rw [if_neg hcond]

end Wrangler

namespace Wrangler

/-- The payload submitted for container A in the witness run. -/
def wBodyA : LabwareBody :=
  ⟨.PLATE, "A", [wRow "A" "s1"], some "s1-uuid", some "lysate_plate_purpose-uuid"⟩

/-- The payload submitted for container B in the witness run. -/
def wBodyB : LabwareBody :=
  ⟨.PLATE, "B", [wRow "B" "s1"], some "s1-uuid", some "lysate_plate_purpose-uuid"⟩

/-- The payload submitted for container C in the witness run. -/
def wBodyC : LabwareBody :=
  ⟨.PLATE, "C", [wRow "C" "s2"], some "s2-uuid", some "lysate_plate_purpose-uuid"⟩

/-- Witness for C1: the three-container fixture where the submission of B is
rejected; exactly A and C get marked, B is reported, the run completes. -/
theorem C1_mixed_outcome_commit_witness :
    runContainers wCfg wDb
        = [("A", [wRow "A" "s1"]), ("B", [wRow "B" "s1"]), ("C", [wRow "C" "s2"])]
    ∧ markedBarcodes (run wEnv wCfg wDb).1 = ["A", "C"]
    ∧ Event.logFailure ["B"] ∈ (run wEnv wCfg wDb).1
    ∧ Event.logBody "bad request" ∈ (run wEnv wCfg wDb).1
    ∧ (run wEnv wCfg wDb).2.1 = none := by
  have h := C1_mixed_outcome_commit wEnv wCfg wDb "A" "B" "C"
    [wRow "A" "s1"] [wRow "B" "s1"] [wRow "C" "s2"]
    wBodyA wBodyB wBodyC "created" "bad request" "created"
    (by decide) (by decide) (by decide) (by rfl) (by rfl) (by rfl)
  exact ⟨by decide, h.1, h.2.1, h.2.2.1, h.2.2.2.1⟩

end Wrangler


namespace Wrangler

/-! ### Run-level trace projections -/

theorem submittedBarcodes_lookups (ent : String) (names : List String) :
    submittedBarcodes (names.map fun s => Event.entityLookup ent s) = [] := by
  induction names with
  | nil => rfl
  | cons n ns ih => simpa [submittedBarcodes, List.filterMap_cons] using ih

theorem reportedBarcodes_lookups (ent : String) (names : List String) :
    reportedBarcodes (names.map fun s => Event.entityLookup ent s) = [] := by
  induction names with
  | nil => rfl
  | cons n ns ih => simpa [reportedBarcodes, List.filterMap_cons] using ih

theorem submittedBarcodes_run (env : Env) (cfg : Config) (db : List DbRow)
    (h : runRows cfg db ≠ []) :
    submittedBarcodes (run env cfg db).1 =
      submittedBarcodes (consumeResponses env (runStudyUuids env cfg db)
        (runPurposes env) cfg.table (runContainers cfg db) []).1 := by
  rw [run_eq env cfg db h]
  simp only [submittedBarcodes, List.filterMap_cons, List.filterMap_append]
  have h2 := submittedBarcodes_lookups STUDY_ENTITY (runStudies cfg db)
  simp only [submittedBarcodes] at h2
  rw [h2, List.nil_append]

theorem reportedBarcodes_run (env : Env) (cfg : Config) (db : List DbRow)
    (h : runRows cfg db ≠ []) :
    reportedBarcodes (run env cfg db).1 =
      reportedBarcodes (consumeResponses env (runStudyUuids env cfg db)
        (runPurposes env) cfg.table (runContainers cfg db) []).1 := by
  rw [run_eq env cfg db h]
  simp only [reportedBarcodes, List.filterMap_cons, List.filterMap_append]
  have h2 := reportedBarcodes_lookups STUDY_ENTITY (runStudies cfg db)
  simp only [reportedBarcodes] at h2
  simp only [List.flatten_append]
  rw [h2, List.nil_append]

theorem run_err (env : Env) (cfg : Config) (db : List DbRow)
    (h : runRows cfg db ≠ []) :
    (run env cfg db).2.1 =
      (consumeResponses env (runStudyUuids env cfg db) (runPurposes env)
        cfg.table (runContainers cfg db) []).2 := by
  rw [run_eq env cfg db h]

theorem run_db (env : Env) (cfg : Config) (db : List DbRow)
    (h : runRows cfg db ≠ []) :
    (run env cfg db).2.2 =
      applyTrace env.now db (consumeResponses env (runStudyUuids env cfg db)
        (runPurposes env) cfg.table (runContainers cfg db) []).1 := by
  rw [run_eq env cfg db h]

end Wrangler

namespace Wrangler

/-! ### Study and purpose lookup events of a run -/

theorem studyLookupNames_cons_fetch (t d : String) (tr : List Event) :
    studyLookupNames (Event.fetchQuery t d :: tr) = studyLookupNames tr := rfl

theorem studyLookupNames_lookups_self (names : List String) (tr : List Event) :
    studyLookupNames ((names.map fun s => Event.entityLookup STUDY_ENTITY s) ++ tr)
      = names ++ studyLookupNames tr := by
  induction names with
  | nil => rfl
  | cons n ns ih =>
    simp only [List.map_cons, List.cons_append, studyLookupNames,
      List.filterMap_cons, if_pos rfl] at ih ⊢
    rw [ih]
    rfl

theorem studyLookupNames_cons_purpose (n : String) (tr : List Event) :
    studyLookupNames (Event.entityLookup PLATE_PURPOSE_ENTITY n :: tr)
      = studyLookupNames tr := by
  simp only [studyLookupNames, List.filterMap_cons]
  rw [if_neg (by decide : ¬(PLATE_PURPOSE_ENTITY = STUDY_ENTITY))]

theorem studyLookupNames_run (env : Env) (cfg : Config) (db : List DbRow)
    (h : runRows cfg db ≠ []) :
    studyLookupNames (run env cfg db).1 = runStudies cfg db := by
  rw [run_eq env cfg db h, studyLookupNames_cons_fetch,
    studyLookupNames_lookups_self, studyLookupNames_cons_purpose,
    studyLookupNames_cons_purpose,
    studyLookupNames_eq_nil _ (consume_no_lookup env (runStudyUuids env cfg db)
      (runPurposes env) cfg.table (runContainers cfg db) []),
    List.append_nil]

theorem purposeLookupNames_cons_fetch (t d : String) (tr : List Event) :
    purposeLookupNames (Event.fetchQuery t d :: tr) = purposeLookupNames tr := rfl

theorem purposeLookupNames_study_lookups (names : List String) (tr : List Event) :
    purposeLookupNames
        ((names.map fun s => Event.entityLookup STUDY_ENTITY s) ++ tr)
      = purposeLookupNames tr := by
  induction names with
  | nil => rfl
  | cons n ns ih =>
    simp only [List.map_cons, List.cons_append, purposeLookupNames,
      List.filterMap_cons,
      if_neg (by decide : ¬(STUDY_ENTITY = PLATE_PURPOSE_ENTITY))] at ih ⊢
    exact ih

theorem purposeLookupNames_cons_purpose (n : String) (tr : List Event) :
    purposeLookupNames (Event.entityLookup PLATE_PURPOSE_ENTITY n :: tr)
      = n :: purposeLookupNames tr := by
  simp [purposeLookupNames, List.filterMap_cons]

theorem purposeLookupNames_run (env : Env) (cfg : Config) (db : List DbRow)
    (h : runRows cfg db ≠ []) :
    purposeLookupNames (run env cfg db).1
      = [LYSATE_PLATE_PURPOSE, LYSATE_TR_PURPOSE] := by
  rw [run_eq env cfg db h, purposeLookupNames_cons_fetch,
    purposeLookupNames_study_lookups, purposeLookupNames_cons_purpose,
    purposeLookupNames_cons_purpose,
    purposeLookupNames_eq_nil _ (consume_no_lookup env (runStudyUuids env cfg db)
      (runPurposes env) cfg.table (runContainers cfg db) [])]

theorem noLookupAfterSubmit_of_no_lookup (tr : List Event)
    (h : ∀ e ∈ tr, isEntityLookup e = false) :
    noLookupAfterSubmit tr = true := by
  induction tr with
  | nil => rfl
  | cons e rest ih =>
    cases e
    case submit body =>
      simp only [noLookupAfterSubmit, List.all_eq_true]
      intro x hx
      simp [h x (List.mem_cons_of_mem _ hx)]
    all_goals exact ih fun x hx => h x (List.mem_cons_of_mem _ hx)

theorem noLookupAfterSubmit_cons_fetch (t d : String) (tr : List Event) :
    noLookupAfterSubmit (Event.fetchQuery t d :: tr)
      = noLookupAfterSubmit tr := rfl

theorem noLookupAfterSubmit_cons_lookup (ent n : String) (tr : List Event) :
    noLookupAfterSubmit (Event.entityLookup ent n :: tr)
      = noLookupAfterSubmit tr := rfl

theorem noLookupAfterSubmit_lookups (ent : String) (names : List String)
    (tr : List Event) (h : noLookupAfterSubmit tr = true) :
    noLookupAfterSubmit ((names.map fun s => Event.entityLookup ent s) ++ tr)
      = true := by
  induction names with
  | nil => simpa using h
  | cons n ns ih =>
    simpa [noLookupAfterSubmit_cons_lookup] using ih

theorem noLookupAfterSubmit_run (env : Env) (cfg : Config) (db : List DbRow)
    (h : runRows cfg db ≠ []) :
    noLookupAfterSubmit (run env cfg db).1 = true := by
  rw [run_eq env cfg db h, noLookupAfterSubmit_cons_fetch]
  apply noLookupAfterSubmit_lookups
  rw [noLookupAfterSubmit_cons_lookup, noLookupAfterSubmit_cons_lookup]
  exact noLookupAfterSubmit_of_no_lookup _
    (consume_no_lookup env (runStudyUuids env cfg db) (runPurposes env)
      cfg.table (runContainers cfg db) [])

end Wrangler

namespace Wrangler

/-! ### Claim C2 -/

/-- Counterexample to C2 as stated: in the mixed-outcome fixture both A and C
succeed, yet the run issues two separate marker-update statements (one per
contiguous success cohort of the groupby over the outcome stream), neither of
which covers the whole succeeded set: there is no single markWrangled call
covering all succeeded barcodes. -/
theorem C2_single_statement_counterexample :
    marksOf (run wEnv wCfg wDb).1 = [["A"], ["C"]]
    ∧ (marksOf (run wEnv wCfg wDb).1).length = 2
    ∧ markedBarcodes (run wEnv wCfg wDb).1 = ["A", "C"] :=
  ⟨by decide, by decide, by decide⟩

/-- C2 amended: for every run whose outcome stream completes without raising
(outcome sequence rs), the warehouse marker writes — one per maximal
contiguous cohort of successful outcomes, not necessarily one single
statement per run — together cover, in order, exactly the barcodes of the
succeeded outcomes. -/
theorem C2_marks_cover_succeeded (env : Env) (cfg : Config) (db : List DbRow)
    (rs : List SSResponse)
    (hout : outcomesOf env (runStudyUuids env cfg db) (runPurposes env)
      (runContainers cfg db) = .ok rs) :
    markedBarcodes (run env cfg db).1
      = ((rs.filter fun x => x.successful).map fun x => x.barcode) := by
  by_cases hne : runRows cfg db = []
  · have hc : runContainers cfg db = [] := by
      rw [runContainers, hne]
      rfl
    rw [hc] at hout
    have hrs : rs = [] := by simpa [outcomesOf] using hout.symm
    subst hrs
    rw [run_empty env cfg db hne]
    rfl
  · rw [markedBarcodes_run env cfg db hne]
    have h2 := consume_marks env (runStudyUuids env cfg db) (runPurposes env)
      cfg.table (runContainers cfg db) [] rs (by simp) hout
    simpa using h2

/-- The outcome sequence of the witness run. -/
def wOutcomes : List SSResponse :=
  [⟨"A", "created", true⟩, ⟨"B", "bad request", false⟩, ⟨"C", "created", true⟩]

/-- Witness for the amended C2 on the mixed-outcome fixture. -/
theorem C2_marks_cover_succeeded_witness :
    outcomesOf wEnv (runStudyUuids wEnv wCfg wDb) (runPurposes wEnv)
        (runContainers wCfg wDb) = .ok wOutcomes
    ∧ markedBarcodes (run wEnv wCfg wDb).1
        = ((wOutcomes.filter fun x => x.successful).map fun x => x.barcode) :=
  ⟨by rfl, C2_marks_cover_succeeded wEnv wCfg wDb wOutcomes (by rfl)⟩

/-! ### Claim C3 -/

/-- Counterexample to C3 as stated: in the mixed-outcome fixture a marker
write (for the cohort containing A) appears in the trace strictly before
the submission of container C, so a warehouse marker-update write is issued before
every container submission of the run has completed. -/
theorem C3_mark_before_submit_counterexample :
    markThenSubmit (run wEnv wCfg wDb).1 = true := by decide

theorem coveredMarks_cons_fetch (sub : List String) (t d : String)
    (tr : List Event) :
    coveredMarks sub (Event.fetchQuery t d :: tr) = coveredMarks sub tr := rfl

theorem coveredMarks_cons_lookup (sub : List String) (ent n : String)
    (tr : List Event) :
    coveredMarks sub (Event.entityLookup ent n :: tr) = coveredMarks sub tr := rfl

theorem coveredMarks_lookups (sub : List String) (ent : String)
    (names : List String) (tr : List Event) (h : coveredMarks sub tr = true) :
    coveredMarks sub ((names.map fun s => Event.entityLookup ent s) ++ tr)
      = true := by
  induction names with
  | nil => simpa using h
  | cons n ns ih => simpa [coveredMarks_cons_lookup] using ih

/-- C3 amended: because the outcome stream is consumed lazily, a marker write
for an earlier cohort can be issued before later containers are submitted;
what holds is that every marker write is issued only after the submissions of
all barcodes it covers have completed: each markWrangled event covers only
barcodes of submit events occurring earlier in the trace. -/
theorem C3_marks_follow_their_submissions (env : Env) (cfg : Config)
    (db : List DbRow) : coveredMarks [] (run env cfg db).1 = true := by
  by_cases hne : runRows cfg db = []
  · rw [run_empty env cfg db hne]
    rfl
  · rw [run_eq env cfg db hne, coveredMarks_cons_fetch]
    apply coveredMarks_lookups
    rw [coveredMarks_cons_lookup, coveredMarks_cons_lookup]
    exact consume_covered env (runStudyUuids env cfg db) (runPurposes env)
      cfg.table (runContainers cfg db) [] [] (by simp)

/-! ### Claim C4 -/

/-- C4: No duplicate submission: the fetch query and the marker-update write
agree on the `wrangled` column (unwrangled iff the marker is unset, the
update stamps it `NOW()`), so every barcode covered by a marker write of run
N has all its rows stamped and is absent from the fetch result of run N+1
computed over the table state the run leaves behind. -/
theorem C4_no_refetch_after_mark (env : Env) (cfg : Config) (db : List DbRow)
    (b : String) (hb : b ∈ markedBarcodes (run env cfg db).1) :
    ∀ r ∈ get_unwrangled_labware cfg.table cfg.destination (run env cfg db).2.2,
      r.container_barcode ≠ b := by
  intro r hr hbar
  rw [get_unwrangled_labware, mem_sortByBarcode] at hr
  have hrw : r.wrangled = none := by
    have h2 := List.of_mem_filter hr
    simp only [Bool.and_eq_true, beq_iff_eq] at h2
    exact h2.2
  have hrdb : r ∈ (run env cfg db).2.2 := List.mem_of_mem_filter hr
  by_cases hne : runRows cfg db = []
  · rw [run_empty env cfg db hne] at hb
    simp [markedBarcodes, marksOf] at hb
  · rw [markedBarcodes_run env cfg db hne] at hb
    rw [run_db env cfg db hne] at hrdb
    have h3 := applyTrace_marked env.now b _ db hb r hrdb hbar
    rw [h3] at hrw
    exact Option.noConfusion hrw

/-- Witness for C4: after the witness run marks A, the fetch over the
resulting table still returns the row of B, and the theorem applied to it shows
its barcode is not A. -/
theorem C4_no_refetch_after_mark_witness :
    ("A" ∈ markedBarcodes (run wEnv wCfg wDb).1)
    ∧ wRow "B" "s1" ∈ get_unwrangled_labware wCfg.table wCfg.destination
        (run wEnv wCfg wDb).2.2
    ∧ (wRow "B" "s1").container_barcode ≠ "A" :=
  ⟨by decide, by decide,
    C4_no_refetch_after_mark wEnv wCfg wDb "A" (by decide) (wRow "B" "s1")
      (by decide)⟩

end Wrangler

namespace Wrangler

/-! ### Claim C5 -/

/-- C5: for every run containing a container whose rows classify as neither
PLATE nor TUBE_RACK (the first such container in processing order), the run
aborts: the unhandled-labware exception propagates out of run; the container
is not skipped per-container, the containers after it are never submitted,
and no marker write covers any barcode beyond the previously submitted
containers. -/
theorem C5_unknown_labware_aborts_run (env : Env) (cfg : Config)
    (db : List DbRow) (bc : String) (rows : List DbRow)
    (pre post : List (String × List DbRow))
    (hsplit : runContainers cfg db = pre ++ (bc, rows) :: post)
    (hunk : determine_labware_type bc rows = .UNKNOWN)
    (hpre : ∀ p ∈ pre, determine_labware_type p.1 p.2 ≠ .UNKNOWN) :
    (run env cfg db).2.1 = some unknownLabwareMsg
    ∧ submittedBarcodes (run env cfg db).1 = (pre.map fun c => c.1)
    ∧ ∀ b ∈ markedBarcodes (run env cfg db).1, b ∈ pre.map fun c => c.1 := by
  have hne : runRows cfg db ≠ [] := by
    intro h0
    rw [runContainers, h0] at hsplit
    simp [groupByKey] at hsplit
  have hprops : ∀ p ∈ pre,
      p.2 ≠ [] ∧ determine_labware_type p.1 p.2 ≠ .UNKNOWN := by
    intro p hp
    have hpmem : p ∈ runContainers cfg db := by
      rw [hsplit]
      exact List.mem_append_left _ hp
    exact ⟨groupByKey_groups_ne_nil _ _ p hpmem, hpre p hp⟩
  obtain ⟨herr, hsubm⟩ := consume_abort env (runStudyUuids env cfg db)
    (runPurposes env) cfg.table bc rows post hunk pre [] hprops
  refine ⟨?_, ?_, ?_⟩
  · rw [run_err env cfg db hne, hsplit]
    exact herr
  · rw [submittedBarcodes_run env cfg db hne, hsplit]
    exact hsubm
  · intro b hb
    rw [markedBarcodes_run env cfg db hne] at hb
    have hcov := consume_covered env (runStudyUuids env cfg db) (runPurposes env)
      cfg.table (runContainers cfg db) [] [] (by simp)
    rcases marked_subset_submitted _ [] hcov b hb with h1 | h1
    · simp at h1
    · rw [hsplit] at h1
      rw [hsubm] at h1
      exact h1

/-- Witness for C5: the two-container fixture whose second container matches
no labware shape: the run aborts with the unhandled-type message after
submitting only A. -/
theorem C5_unknown_labware_aborts_run_witness :
    runContainers wCfg wDbBad
        = [("A", [wRow "A" "s1"])]
          ++ ("B", [⟨"B", "s1", "cgap", none, none, none⟩]) :: []
    ∧ determine_labware_type "B" [⟨"B", "s1", "cgap", none, none, none⟩]
        = .UNKNOWN
    ∧ (run wEnv wCfg wDbBad).2.1 = some unknownLabwareMsg
    ∧ submittedBarcodes (run wEnv wCfg wDbBad).1 = ["A"] := by
  have h := C5_unknown_labware_aborts_run wEnv wCfg wDbBad "B"
    [⟨"B", "s1", "cgap", none, none, none⟩] [("A", [wRow "A" "s1"])] []
    (by decide) (by decide) (by decide)
  exact ⟨by decide, by decide, h.1, h.2.1⟩

/-! ### Claim C6 -/

/-- C6: batch resolution bound: for every run with a non-empty fetched row
set, the study-entity lookups are exactly one per distinct study name of the
fetched rows (the dedup of the row study values, which has no duplicates),
the purpose-entity lookups are exactly two — the plate purpose then the
tube-rack purpose — and no resolver lookup occurs at or after any
submission. -/
theorem C6_batch_resolution_bound (env : Env) (cfg : Config) (db : List DbRow)
    (h : runRows cfg db ≠ []) :
    studyLookupNames (run env cfg db).1
        = ((runRows cfg db).map fun r => r.study).dedup
    ∧ (((runRows cfg db).map fun r => r.study).dedup).Nodup
    ∧ purposeLookupNames (run env cfg db).1
        = [LYSATE_PLATE_PURPOSE, LYSATE_TR_PURPOSE]
    ∧ noLookupAfterSubmit (run env cfg db).1 = true :=
  ⟨studyLookupNames_run env cfg db h, List.nodup_dedup _,
    purposeLookupNames_run env cfg db h, noLookupAfterSubmit_run env cfg db h⟩

/-- Witness for C6 on the three-container fixture: two distinct studies give
exactly two study lookups, plus the two purpose lookups. -/
theorem C6_batch_resolution_bound_witness :
    studyLookupNames (run wEnv wCfg wDb).1 = ["s1", "s2"]
    ∧ purposeLookupNames (run wEnv wCfg wDb).1
        = [LYSATE_PLATE_PURPOSE, LYSATE_TR_PURPOSE]
    ∧ noLookupAfterSubmit (run wEnv wCfg wDb).1 = true := by
  have h := C6_batch_resolution_bound wEnv wCfg wDb (by decide)
  exact ⟨h.1.trans (by decide), h.2.2.1, h.2.2.2⟩

/-! ### Claim C8 -/

/-- C8: order preservation: the fetched rows are grouped into contiguous
container groups whose concatenation is exactly the fetched row sequence and
whose rows all carry the group barcode; when the outcome stream of the run
completes without raising, the submissions occur exactly in the order of the
container groups (one submission per container, in input barcode order, each
completed before the next), and the success/failure report lines list the
barcodes in that same relative order. -/
theorem C8_order_preservation (env : Env) (cfg : Config) (db : List DbRow)
    (rs : List SSResponse)
    (hout : outcomesOf env (runStudyUuids env cfg db) (runPurposes env)
      (runContainers cfg db) = .ok rs) :
    (((runContainers cfg db).map fun c => c.2).flatten = runRows cfg db)
    ∧ (∀ c ∈ runContainers cfg db, ∀ r ∈ c.2, r.container_barcode = c.1)
    ∧ submittedBarcodes (run env cfg db).1
        = ((runContainers cfg db).map fun c => c.1)
    ∧ reportedBarcodes (run env cfg db).1
        = ((runContainers cfg db).map fun c => c.1) := by
  refine ⟨groupByKey_flatten _ _, groupByKey_key_eq _ _, ?_⟩
  by_cases hne : runRows cfg db = []
  · have hc : runContainers cfg db = [] := by
      rw [runContainers, hne]
      rfl
    rw [run_empty env cfg db hne, hc]
    exact ⟨rfl, rfl⟩
  · constructor
    · rw [submittedBarcodes_run env cfg db hne]
      exact consume_submits env (runStudyUuids env cfg db) (runPurposes env)
        cfg.table (runContainers cfg db) [] rs hout
    · rw [reportedBarcodes_run env cfg db hne]
      have h2 := consume_reports env (runStudyUuids env cfg db) (runPurposes env)
        cfg.table (runContainers cfg db) [] rs hout
      simpa using h2

/-- Witness for C8 on the three-container fixture: submissions and report
lines both follow the barcode order A, B, C. -/
theorem C8_order_preservation_witness :
    submittedBarcodes (run wEnv wCfg wDb).1 = ["A", "B", "C"]
    ∧ reportedBarcodes (run wEnv wCfg wDb).1 = ["A", "B", "C"] := by
  have h := C8_order_preservation wEnv wCfg wDb wOutcomes (by rfl)
  exact ⟨h.2.2.1.trans (by decide), h.2.2.2.trans (by decide)⟩

/-! ### Claim C9 -/

/-- C9: the study-uuid map is built over the distinct study values of all
fetched rows, and the first row of each container group is one of the fetched
rows, so its study is always a key of that map: every submitted payload
carries a present study uuid — the None-default fallback of the map lookup is
unreachable within run. -/
theorem C9_study_uuid_default_unreachable (env : Env) (cfg : Config)
    (db : List DbRow) (body : LabwareBody)
    (hmem : Event.submit body ∈ (run env cfg db).1) :
    body.study_uuid.isSome = true := by
  by_cases hne : runRows cfg db = []
  · rw [run_empty env cfg db hne] at hmem
    simp at hmem
  · rw [run_eq env cfg db hne] at hmem
    have hmem2 : Event.submit body ∈ (consumeResponses env
        (runStudyUuids env cfg db) (runPurposes env) cfg.table
        (runContainers cfg db) []).1 := by
      rcases List.mem_cons.mp hmem with h1 | h1
      · exact Event.noConfusion h1
      · rcases List.mem_append.mp h1 with h2 | h2
        · obtain ⟨s, -, hs⟩ := List.mem_map.mp h2
          exact Event.noConfusion hs
        · rcases List.mem_cons.mp h2 with h3 | h3
          · exact Event.noConfusion h3
          · rcases List.mem_cons.mp h3 with h4 | h4
            · exact Event.noConfusion h4
            · exact h4
    obtain ⟨c, r, hc, hsc⟩ := consume_submit_origin env (runStudyUuids env cfg db)
      (runPurposes env) cfg.table (runContainers cfg db) [] body hmem2
    obtain ⟨-, -, row0, hhead, hstudy⟩ :=
      submitContainer_ok_shape env (runStudyUuids env cfg db) (runPurposes env)
        c body r hsc
    have hrow0 : row0 ∈ c.2 := by
      cases hc2 : c.2 with
      | nil => rw [hc2] at hhead; exact Option.noConfusion hhead
      | cons a l =>
        rw [hc2] at hhead
        rw [List.head?_cons] at hhead
        rw [Option.some.inj hhead] at hc2 ⊢
        exact List.mem_cons_self _ _
    have hrowrows : row0 ∈ runRows cfg db :=
      groupByKey_mem_rows _ _ c hc row0 hrow0
    have hstud : row0.study ∈ runStudies cfg db := by
      rw [runStudies, List.mem_dedup]
      exact List.mem_map.mpr ⟨row0, hrowrows, rfl⟩
    rw [hstudy]
    exact runStudyUuids_lookup_isSome env cfg db row0.study hstud

/-- Witness for C9: the payload submitted for container A in the witness run
carries a present study uuid. -/
theorem C9_study_uuid_default_unreachable_witness :
    Event.submit wBodyA ∈ (run wEnv wCfg wDb).1
    ∧ wBodyA.study_uuid.isSome = true :=
  ⟨by decide,
    C9_study_uuid_default_unreachable wEnv wCfg wDb wBodyA (by decide)⟩

end Wrangler
